import Mathlib

/-!
Shallow embedding of the `validation` Go package (JubaerHossain/validation,
`validation.go`): a declarative struct-field validation library.  Values are
modelled by a closed sum over the kinds the validators inspect (nil, string,
integer, slice, map, uploaded-file handle); a Go panic (the unchecked type
assertion in `PhoneValidation`) is modelled by `Except.error`.
-/

set_option autoImplicit false

namespace Validation

/-- A Go panic message; validators that cannot panic always return `.ok`. -/
abbrev GoPanic := String

/-- `multipart.FileHeader`: the parts the validators read. -/
structure FileHeader where
  Filename : String
  ContentType : String
  Size : Int
deriving DecidableEq, Repr

/-- The dynamic `interface\x7b\x7d` values flowing through the validators: the
closed union of kinds the library's type switches and assertions inspect. -/
inductive GoValue where
  | vnil
  | str (s : String)
  | int (n : Int)
  | slice (len : Nat)
  | map (len : Nat)
  | file (fh : FileHeader)
deriving DecidableEq, Repr

/-- `ValidationErrorItem`: one field-scoped failure. -/
structure ValidationErrorItem where
  Field : String
  Message : String
deriving DecidableEq, Repr

/-- The zero value `ValidationErrorItem\x7b\x7d` used by the engine as the
"no error" sentinel. -/
def emptyItem : ValidationErrorItem := ⟨"", ""⟩

/-- `func(interface\x7b\x7d) ValidationErrorItem`, with panics made explicit. -/
abbrev Validator := GoValue → Except GoPanic ValidationErrorItem

/-- `ValidationRule`. -/
structure ValidationRule where
  Field : String
  Description : String
  Validations : List Validator

/-- The Go comparison `value == nil || value == ""` guarding every validator. -/
def isAbsent (v : GoValue) : Bool :=
  v = .vnil ∨ v = .str ""

/-- `getFieldByJsonTag`: scan the struct's fields for the first whose json tag
equals `field` and return its value; a non-struct record (or no match) yields
the nil interface.  A record is either a struct (a tagged field list) or some
non-struct value. -/
inductive GoData where
  | struct (fields : List (String × GoValue))
  | nonStruct

def getFieldByJsonTag (data : GoData) (field : String) : GoValue :=
  match data with
  | .nonStruct => .vnil
  | .struct fields =>
    match fields.find? (fun p => p.1 == field) with
    | some p => p.2
    | none => .vnil

/-- `getField`: resolution fails (with the "field not found" message) exactly
when the tag lookup produced the nil interface. -/
def getField (data : GoData) (field : String) : Except String GoValue :=
  let value := getFieldByJsonTag data field
  if value = .vnil then .error ("field not found: " ++ field)
  else .ok value

/-- The inner loop of `Validate`: run each validator on the resolved value, in
order; a non-zero result gets its `Field` set to the rule's field and is
appended; a panic aborts the whole evaluation. -/
def runValidators (fieldName : String) (v : GoValue) :
    List Validator → Except GoPanic (List ValidationErrorItem)
  | [] => .ok []
  | fn :: rest =>
    match fn v with
    | .error p => .error p
    | .ok item =>
      match runValidators fieldName v rest with
      | .error p => .error p
      | .ok tail =>
        .ok (if item = emptyItem then tail else ⟨fieldName, item.Message⟩ :: tail)

/-- One iteration of the outer loop of `Validate`: failed resolution appends a
single item and skips the validators. -/
def runRule (data : GoData) (rule : ValidationRule) :
    Except GoPanic (List ValidationErrorItem) :=
  match getField data rule.Field with
  | .error e => .ok [⟨rule.Field, e⟩]
  | .ok v => runValidators rule.Field v rule.Validations

/-- `Validate`: accumulate every rule's items, in rule order. -/
def Validate (data : GoData) :
    List ValidationRule → Except GoPanic (List ValidationErrorItem)
  | [] => .ok []
  | rule :: rest =>
    match runRule data rule with
    | .error p => .error p
    | .ok head =>
      match Validate data rest with
      | .error p => .error p
      | .ok tail => .ok (head ++ tail)

/-- `RequiredValidation`. -/
def RequiredValidation : Validator := fun value =>
  if isAbsent value then .ok ⟨"", "Field is required"⟩
  else
    match value with
    | .str s => if s = "" then .ok ⟨"", "Field is required"⟩ else .ok emptyItem
    | .slice n => if n = 0 then .ok ⟨"", "Field is required"⟩ else .ok emptyItem
    | .map n => if n = 0 then .ok ⟨"", "Field is required"⟩ else .ok emptyItem
    | _ => .ok emptyItem

/-- Go `len` of a string counts bytes. -/
def goLen (s : String) : Nat := s.utf8ByteSize

/-- `MinLengthValidation` (factory). -/
def MinLengthValidation (minLength : Int) : Validator := fun value =>
  if isAbsent value then .ok emptyItem
  else
    match value with
    | .str s =>
      if (goLen s : Int) < minLength then
        .ok ⟨"", "Field must be at least " ++ toString minLength ++ " characters long"⟩
      else .ok emptyItem
    | .slice n =>
      if (n : Int) < minLength then
        .ok ⟨"", "Field must have at least " ++ toString minLength ++ " items"⟩
      else .ok emptyItem
    | .map n =>
      if (n : Int) < minLength then
        .ok ⟨"", "Field must have at least " ++ toString minLength ++ " items"⟩
      else .ok emptyItem
    | _ => .ok emptyItem

/-- `MaxLengthValidation` (factory). -/
def MaxLengthValidation (maxLength : Int) : Validator := fun value =>
  if isAbsent value then .ok emptyItem
  else
    match value with
    | .str s =>
      if (goLen s : Int) > maxLength then
        .ok ⟨"", "Field must not exceed " ++ toString maxLength ++ " characters"⟩
      else .ok emptyItem
    | .slice n =>
      if (n : Int) > maxLength then
        .ok ⟨"", "Field must not have more than " ++ toString maxLength ++ " items"⟩
      else .ok emptyItem
    | .map n =>
      if (n : Int) > maxLength then
        .ok ⟨"", "Field must not have more than " ++ toString maxLength ++ " items"⟩
      else .ok emptyItem
    | _ => .ok emptyItem

/-- `strings.HasPrefix` on character lists (first argument the prefix). -/
def listHasPfx : List Char → List Char → Bool
  | [], _ => true
  | _ :: _, [] => false
  | a :: as, b :: bs => a = b && listHasPfx as bs

/-- Split a character list at every separator, keeping empty groups, matching
the splitting behaviour of Go's regexp-free decompositions used below. -/
def splitChar (p : Char → Bool) : List Char → List (List Char)
  | [] => [[]]
  | c :: rest =>
    if p c then [] :: splitChar p rest
    else
      match splitChar p rest with
      | [] => [[c]]
      | g :: gs => (c :: g) :: gs

/-- Rejoin groups with a dot separator (used to state non-emptiness of the
part of a domain before its last dot). -/
def joinDots : List (List Char) → List Char
  | [] => []
  | [g] => g
  | g :: gs => g ++ '.' :: joinDots gs

/-- Character class `[a-zA-Z0-9._%+\-]` of the email regex's local part. -/
def isEmailLocalChar (c : Char) : Bool :=
  c.isAlpha || c.isDigit || c = '.' || c = '_' || c = '%' || c = '+' || c = '-'

/-- Character class `[a-zA-Z0-9.\-]` of the email regex's domain part. -/
def isEmailDomainChar (c : Char) : Bool :=
  c.isAlpha || c.isDigit || c = '.' || c = '-'

/-- The email regex: local part, a single `@` (neither class admits `@`, so
exactly one), a dotted domain whose final label is at least two letters.  Only
the last dot can delimit the final label, since the label class has no dot. -/
def emailRegexMatch (s : String) : Bool :=
  match splitChar (fun c => c = '@') s.data with
  | [lpart, dom] =>
    (¬ lpart.isEmpty) && lpart.all isEmailLocalChar &&
      (let parts := splitChar (fun c => c = '.') dom
       decide (2 ≤ parts.length) &&
        (match parts.getLast? with
         | some t => decide (2 ≤ t.length) && t.all Char.isAlpha
         | none => false) &&
        (¬ (joinDots parts.dropLast).isEmpty) &&
        (parts.dropLast).all (fun p => p.all isEmailDomainChar))
  | _ => false

/-- `EmailValidation`: the failed type assertion `value.(string), ok` makes a
non-string pass. -/
def EmailValidation : Validator := fun value =>
  if isAbsent value then .ok emptyItem
  else
    match value with
    | .str email =>
      if ¬ emailRegexMatch email then
        .ok ⟨"", "Field must be a valid email address"⟩
      else .ok emptyItem
    | _ => .ok emptyItem

/-- The phone regex `^\+[1-9]\d\x7b1,14\x7d$`. -/
def phoneRegexMatch (s : String) : Bool :=
  match s.data with
  | '+' :: c :: rest =>
    ('1' ≤ c && c ≤ '9') && decide (1 ≤ rest.length) && decide (rest.length ≤ 14) &&
      rest.all Char.isDigit
  | _ => false

/-- `PhoneValidation`: the type assertion `value.(string)` is UNCHECKED, so a
non-nil, non-empty, non-string value panics (modelled as `.error`). -/
def PhoneValidation : Validator := fun value =>
  if isAbsent value then .ok emptyItem
  else
    match value with
    | .str s =>
      if ¬ phoneRegexMatch s then .ok ⟨"", "Invalid phone number format"⟩
      else .ok emptyItem
    | _ => .error "interface conversion: value is not a string"

/-- Word characters `\w` = `[A-Za-z0-9_]`. -/
def isWordChar (c : Char) : Bool := c.isAlpha || c.isDigit || c = '_'

/-- Class `[\w\-_]` of a URL host label. -/
def isUrlHostChar (c : Char) : Bool := isWordChar c || c = '-' || c = '_'

/-- Class `[\w\-\.,@?^=%&:/~\+#]` of the URL tail's inner characters. -/
def isUrlTailChar (c : Char) : Bool :=
  isWordChar c || c = '-' || c = '.' || c = ',' || c = '@' || c = '?' ||
    c = '^' || c = '=' || c = '%' || c = '&' || c = ':' || c = '/' ||
    c = '~' || c = '+' || c = '#'

/-- Class `[\w\-\@?^=%&/~\+#]` of the URL tail's final character. -/
def isUrlLastChar (c : Char) : Bool :=
  isWordChar c || c = '-' || c = '@' || c = '?' || c = '^' || c = '=' ||
    c = '%' || c = '&' || c = '/' || c = '~' || c = '+' || c = '#'

/-- The host portion `[\w\-_]+(\.[\w\-_]+)+`: at least two non-empty dot
separated labels of host characters (the class has no dot). -/
def urlHostMatch (s : List Char) : Bool :=
  let parts := splitChar (fun c => c = '.') s
  decide (2 ≤ parts.length) &&
    parts.all (fun p => (¬ p.isEmpty) && p.all isUrlHostChar)

/-- The optional tail `([\w\-\.,@?^=%&:/~\+#]*[\w\-\@?^=%&/~\+#])?`. -/
def urlTailMatch (s : List Char) : Bool :=
  s.isEmpty ||
    (s.dropLast.all isUrlTailChar &&
      (match s.getLast? with
       | some c => isUrlLastChar c
       | none => false))

/-- The URL regex: a scheme, then a concatenation of host and optional tail;
concatenation is matched by trying every split point. -/
def urlRegexMatch (s : String) : Bool :=
  let body :=
    if listHasPfx "http://".data s.data then some (s.data.drop 7)
    else if listHasPfx "https://".data s.data then some (s.data.drop 8)
    else none
  match body with
  | none => false
  | some r =>
    (List.range (r.length + 1)).any
      (fun k => urlHostMatch (r.take k) && urlTailMatch (r.drop k))

/-- `URLValidation`: a failed type assertion here DOES report an error. -/
def URLValidation : Validator := fun value =>
  if isAbsent value then .ok emptyItem
  else
    match value with
    | .str urlStr =>
      if ¬ urlRegexMatch urlStr then .ok ⟨"", "Value is not a valid URL"⟩
      else .ok emptyItem
    | _ => .ok ⟨"", "Value is not a string"⟩

/-- `StringValidation`. -/
def StringValidation : Validator := fun value =>
  if isAbsent value then .ok emptyItem
  else
    match value with
    | .str _ => .ok emptyItem
    | _ => .ok ⟨"", "Field must be a string"⟩

/-- `NumericValidation`: an integer kind passes; a string passes iff it
matches `^[0-9]+$`; every other kind fails. -/
def NumericValidation : Validator := fun value =>
  if isAbsent value then .ok emptyItem
  else
    match value with
    | .str s =>
      if ¬ (s ≠ "" && s.data.all Char.isDigit) then
        .ok ⟨"", "Field must be numeric"⟩
      else .ok emptyItem
    | .int _ => .ok emptyItem
    | _ => .ok ⟨"", "Field must be numeric"⟩

/-- The date regex `^\d\x7b4\x7d-\d\x7b2\x7d-\d\x7b2\x7d$`. -/
def dateRegexMatch (s : String) : Bool :=
  match s.data with
  | [y1, y2, y3, y4, '-', m1, m2, '-', d1, d2] =>
    [y1, y2, y3, y4, m1, m2, d1, d2].all Char.isDigit
  | _ => false

def digitVal (c : Char) : Nat := c.toNat - '0'.toNat

/-- Proleptic Gregorian leap years, as used by Go's `time`. -/
def isLeapYear (y : Nat) : Bool :=
  (y % 4 = 0 && y % 100 ≠ 0) || y % 400 = 0

def daysInMonth (y m : Nat) : Nat :=
  if m = 2 then (if isLeapYear y then 29 else 28)
  else if m = 4 ∨ m = 6 ∨ m = 9 ∨ m = 11 then 30
  else 31

/-- Go's `time.Parse("2006-01-02", s)`: demands the exact digit shape, a month
in 1..12 and a day within the month's real calendar length; returns the parsed
(year, month, day) on success and fails otherwise. -/
def goTimeParseDate (s : String) : Option (Nat × Nat × Nat) :=
  match s.data with
  | [y1, y2, y3, y4, '-', m1, m2, '-', d1, d2] =>
    if [y1, y2, y3, y4, m1, m2, d1, d2].all Char.isDigit then
      let y := 1000 * digitVal y1 + 100 * digitVal y2 + 10 * digitVal y3 + digitVal y4
      let m := 10 * digitVal m1 + digitVal m2
      let d := 10 * digitVal d1 + digitVal d2
      if 1 ≤ m ∧ m ≤ 12 ∧ 1 ≤ d ∧ d ≤ daysInMonth y m then some (y, m, d)
      else none
    else none
  | _ => none

/-- `DateValidation`: regex shape first, then real calendar parsing, then the
coarse year/month/day range guards. -/
def DateValidation : Validator := fun value =>
  if isAbsent value then .ok emptyItem
  else
    match value with
    | .str dateStr =>
      if ¬ dateRegexMatch dateStr then .ok ⟨"", "Invalid date format"⟩
      else
        match goTimeParseDate dateStr with
        | none => .ok ⟨"", "Invalid date"⟩
        | some (y, m, d) =>
          if y < 1 ∨ y > 9999 then .ok ⟨"", "Invalid year"⟩
          else if m < 1 ∨ m > 12 then .ok ⟨"", "Invalid month"⟩
          else if d < 1 ∨ d > 31 then .ok ⟨"", "Invalid day"⟩
          else .ok emptyItem
    | _ => .ok ⟨"", "Invalid date format"⟩

/-- `strings.HasPrefix`. -/
def hasPfx (s pre : String) : Bool := listHasPfx pre.data s.data

/-- `ImageValidation`. -/
def ImageValidation : Validator := fun value =>
  if isAbsent value then .ok emptyItem
  else
    match value with
    | .file f =>
      if ¬ hasPfx f.ContentType "image/" then .ok ⟨"", "File must be an image"⟩
      else .ok emptyItem
    | _ => .ok ⟨"", "Invalid file format"⟩

/-- `FileSizeValidation` (factory). -/
def FileSizeValidation (maxSize : Int) : Validator := fun value =>
  if isAbsent value then .ok emptyItem
  else
    match value with
    | .file f =>
      if f.Size > maxSize then
        .ok ⟨"", "File size must be less than " ++ toString maxSize ++ " bytes"⟩
      else .ok emptyItem
    | _ => .ok ⟨"", "Invalid file format"⟩

/-- `contains`: linear membership scan over a string slice. -/
def containsStr (s : List String) (e : String) : Bool :=
  s.any (fun a => a == e)

/-- `ImageMimeValidation`. -/
def ImageMimeValidation : Validator := fun value =>
  if isAbsent value then .ok emptyItem
  else
    match value with
    | .file f =>
      if ¬ containsStr ["image/png", "image/jpg", "image/jpeg", "image/svg+xml"]
          f.ContentType then
        .ok ⟨"", "File must be a PNG, JPG, JPEG or SVG"⟩
      else .ok emptyItem
    | _ => .ok ⟨"", "Invalid file format"⟩

/-- `FileValidation`. -/
def FileValidation : Validator := fun value =>
  if isAbsent value then .ok emptyItem
  else
    match value with
    | .file _ => .ok emptyItem
    | _ => .ok ⟨"", "Invalid file format"⟩

/-- `strings.TrimPrefix`: drop `pre` when it is a (case-sensitive) prefix,
otherwise return the string unchanged. -/
def trimPfx (s pre : String) : String :=
  if listHasPfx pre.data s.data then ⟨s.data.drop pre.data.length⟩ else s

/-- `strings.ToLower` on ASCII content-types. -/
def goToLower (s : String) : String := ⟨s.data.map Char.toLower⟩

/-- `FileTypeValidation` (takes `validTypes` directly, not a factory). -/
def FileTypeValidation (value : GoValue) (validTypes : List String) :
    Except GoPanic ValidationErrorItem :=
  if isAbsent value then .ok emptyItem
  else
    match value with
    | .file f =>
      let fileType := goToLower (trimPfx f.ContentType "application/")
      if ¬ containsStr validTypes fileType then
        .ok ⟨"", "File type is not allowed"⟩
      else .ok emptyItem
    | _ => .ok ⟨"", "Invalid file format"⟩

/-! Unfolding equations and a concatenation lemma for the rule engine. -/

theorem Validate_nil (data : GoData) : Validate data [] = .ok [] := rfl

theorem Validate_cons (data : GoData) (r : ValidationRule) (rest : List ValidationRule) :
    Validate data (r :: rest) =
      match runRule data r with
      | .error p => .error p
      | .ok head =>
        match Validate data rest with
        | .error p => .error p
        | .ok tail => .ok (head ++ tail) := rfl

theorem runValidators_nil (f : String) (v : GoValue) :
    runValidators f v [] = .ok [] := rfl

theorem runValidators_cons (f : String) (v : GoValue) (fn : Validator)
    (rest : List Validator) :
    runValidators f v (fn :: rest) =
      match fn v with
      | .error p => .error p
      | .ok item =>
        match runValidators f v rest with
        | .error p => .error p
        | .ok tail =>
          .ok (if item = emptyItem then tail else ⟨f, item.Message⟩ :: tail) := rfl

theorem validate_append (data : GoData) (l1 l2 : List ValidationRule)
    (e1 e2 : List ValidationErrorItem)
    (h1 : Validate data l1 = .ok e1) (h2 : Validate data l2 = .ok e2) :
    Validate data (l1 ++ l2) = .ok (e1 ++ e2) := by
  induction l1 generalizing e1 with
  | nil =>
    rw [Validate_nil] at h1
    cases h1
    simpa using h2
  | cons r t ih =>
    rw [Validate_cons] at h1
    cases hr : runRule data r with
    | error p => rw [hr] at h1; cases h1
    | ok head =>
      rw [hr] at h1
      cases ht : Validate data t with
      | error p => rw [ht] at h1; cases h1
      | ok tail =>
        rw [ht] at h1
        cases h1
        rw [List.cons_append, Validate_cons, hr, ih tail ht]
        simp

/-- C1: For every record and every rule, `Validate` runs all validators of the
rule in declared order with no short-circuit: if the rule's validators are
[A, B, C] where A and C fail on the resolved value and B passes, the output
contains A's error item followed by C's error item for that field, in that
order, and nothing from B — here stated with arbitrary successfully-validated
rule lists before and after the rule. -/
theorem validate_runs_all_validators_no_short_circuit
    (data : GoData) (f d : String) (A B C : Validator) (v : GoValue)
    (a c : ValidationErrorItem)
    (pre post : List ValidationRule) (epre epost : List ValidationErrorItem)
    (hres : getField data f = .ok v)
    (hA : A v = .ok a) (ha : a ≠ emptyItem)
    (hB : B v = .ok emptyItem)
    (hC : C v = .ok c) (hc : c ≠ emptyItem)
    (hpre : Validate data pre = .ok epre)
    (hpost : Validate data post = .ok epost) :
    Validate data (pre ++ ⟨f, d, [A, B, C]⟩ :: post) =
      .ok (epre ++ ⟨f, a.Message⟩ :: ⟨f, c.Message⟩ :: epost) := by
  have hrule : runRule data ⟨f, d, [A, B, C]⟩ =
      .ok [⟨f, a.Message⟩, ⟨f, c.Message⟩] := by
    unfold runRule
    simp only [hres]
    simp only [runValidators_cons, runValidators_nil, hA, hB, hC]
    simp [ha, hc]
  have hmid : Validate data (⟨f, d, [A, B, C]⟩ :: post) =
      .ok ([⟨f, a.Message⟩, ⟨f, c.Message⟩] ++ epost) := by
    rw [Validate_cons, hrule, hpost]
  have hall := validate_append data pre (⟨f, d, [A, B, C]⟩ :: post) epre _ hpre hmid
  simpa using hall

/-- Witness for C1 at a concrete record, field and validator triple. -/
theorem validate_runs_all_validators_no_short_circuit_witness :
    Validate (.struct [("f", .str "x")])
      [⟨"f", "", [fun _ => .ok ⟨"", "A failed"⟩, fun _ => .ok emptyItem,
        fun _ => .ok ⟨"", "C failed"⟩]⟩] =
      .ok [⟨"f", "A failed"⟩, ⟨"f", "C failed"⟩] := by
  have h := validate_runs_all_validators_no_short_circuit
    (.struct [("f", .str "x")]) "f" ""
    (fun _ => .ok ⟨"", "A failed"⟩) (fun _ => .ok emptyItem)
    (fun _ => .ok ⟨"", "C failed"⟩) (.str "x")
    ⟨"", "A failed"⟩ ⟨"", "C failed"⟩ [] [] [] []
    rfl rfl (by decide) rfl rfl (by decide) rfl rfl
  simpa using h

/-- C2: a rule whose field name matches no field of the record contributes
exactly one Error Item (message "field not found: name"), none of its
validators run, and evaluation continues with the remaining rules. -/
theorem validate_unknown_field_single_error
    (fields : List (String × GoValue)) (f d : String) (vs : List Validator)
    (rest : List ValidationRule)
    (h : fields.find? (fun p => p.1 == f) = none) :
    Validate (.struct fields) (⟨f, d, vs⟩ :: rest) =
      (Validate (.struct fields) rest).map
        (fun tail => ⟨f, "field not found: " ++ f⟩ :: tail) := by
  have hget : getField (.struct fields) f =
      .error ("field not found: " ++ f) := by
    simp [getField, getFieldByJsonTag, h]
  have hrule : runRule (.struct fields) ⟨f, d, vs⟩ =
      .ok [⟨f, "field not found: " ++ f⟩] := by
    unfold runRule
    simp only [hget]
  rw [Validate_cons, hrule]
  cases ht : Validate (.struct fields) rest <;> simp [Except.map]

/-- Witness for C2: the demo's record tags its field `first_name`, so rule
field `name` is unresolved. -/
theorem validate_unknown_field_single_error_witness :
    List.find? (fun p => p.1 == "name") [("first_name", GoValue.str "John")] = none ∧
    Validate (.struct [("first_name", .str "John")])
        [⟨"name", "Name", [RequiredValidation]⟩] =
      (Validate (.struct [("first_name", .str "John")]) []).map
        (fun tail => ⟨"name", "field not found: " ++ "name"⟩ :: tail) :=
  ⟨rfl, validate_unknown_field_single_error [("first_name", .str "John")]
    "name" "Name" [RequiredValidation] [] rfl⟩

/-- C3: an absent value (nil or the empty string) makes every validator of the
library except the required-check pass with an empty outcome, and makes the
required-check fail. -/
theorem non_required_validators_pass_on_absent
    (v : GoValue) (hv : v = .vnil ∨ v = .str "") (n m : Int) (types : List String) :
    MinLengthValidation n v = .ok emptyItem ∧
    MaxLengthValidation m v = .ok emptyItem ∧
    EmailValidation v = .ok emptyItem ∧
    PhoneValidation v = .ok emptyItem ∧
    URLValidation v = .ok emptyItem ∧
    StringValidation v = .ok emptyItem ∧
    NumericValidation v = .ok emptyItem ∧
    DateValidation v = .ok emptyItem ∧
    ImageValidation v = .ok emptyItem ∧
    FileSizeValidation m v = .ok emptyItem ∧
    ImageMimeValidation v = .ok emptyItem ∧
    FileValidation v = .ok emptyItem ∧
    FileTypeValidation v types = .ok emptyItem ∧
    RequiredValidation v = .ok ⟨"", "Field is required"⟩ := by
  rcases hv with h | h <;> subst h <;>
    exact ⟨rfl, rfl, rfl, rfl, rfl, rfl, rfl, rfl, rfl, rfl, rfl, rfl, rfl, rfl⟩

/-- Witness for C3 at the nil value. -/
theorem non_required_validators_pass_on_absent_witness :
    MinLengthValidation 3 .vnil = .ok emptyItem ∧
    MaxLengthValidation 50 .vnil = .ok emptyItem ∧
    EmailValidation .vnil = .ok emptyItem ∧
    PhoneValidation .vnil = .ok emptyItem ∧
    URLValidation .vnil = .ok emptyItem ∧
    StringValidation .vnil = .ok emptyItem ∧
    NumericValidation .vnil = .ok emptyItem ∧
    DateValidation .vnil = .ok emptyItem ∧
    ImageValidation .vnil = .ok emptyItem ∧
    FileSizeValidation 50 .vnil = .ok emptyItem ∧
    ImageMimeValidation .vnil = .ok emptyItem ∧
    FileValidation .vnil = .ok emptyItem ∧
    FileTypeValidation .vnil ["pdf"] = .ok emptyItem ∧
    RequiredValidation .vnil = .ok ⟨"", "Field is required"⟩ :=
  non_required_validators_pass_on_absent .vnil (Or.inl rfl) 3 50 ["pdf"]

/-- The record of spec scenario 2: both tagged fields hold the empty string. -/
def c4record : GoData := .struct [("name", .str ""), ("password", .str "")]

/-- The demo's rule set: required + length bounds on `name` and `password`. -/
def c4rules : List ValidationRule :=
  [⟨"name", "Name",
    [RequiredValidation, MinLengthValidation 3, MaxLengthValidation 50]⟩,
   ⟨"password", "Password",
    [RequiredValidation, MinLengthValidation 6, MaxLengthValidation 50]⟩]

/-- C4 counterexample: validating `(name: "", password: "")` against the demo
rules yields 2 Error Items in total, not the claimed 4. -/
theorem empty_record_yields_two_items_not_four :
    (Validate c4record c4rules).map List.length = .ok 2 ∧ (2 : Nat) ≠ 4 :=
  ⟨rfl, by decide⟩

/-- C4 amended: validating `(name: "", password: "")` against the demo rules
produces exactly one Error Item per field — the required-check message — and
the min-length checks contribute nothing, because `MinLengthValidation`
treats the empty string as absent and passes on it. -/
theorem empty_record_two_required_items :
    Validate c4record c4rules =
      .ok [⟨"name", "Field is required"⟩, ⟨"password", "Field is required"⟩] ∧
    MinLengthValidation 3 (.str "") = .ok emptyItem ∧
    MinLengthValidation 6 (.str "") = .ok emptyItem ∧
    MaxLengthValidation 50 (.str "") = .ok emptyItem :=
  ⟨rfl, rfl, rfl, rfl⟩

/-- C5 (code bug): the phone validator's unchecked string assertion panics on
a non-nil, non-empty, non-string value instead of returning an Error Item. -/
theorem phone_validation_panics_on_non_string :
    PhoneValidation (.int 42) =
      .error "interface conversion: value is not a string" := rfl

/-- C6: the Date validator rejects "2023-02-30" with the invalid-date message:
the string matches the YYYY-MM-DD regex shape, yet real calendar parsing
fails (February 2023 has 28 days), so the rejection comes from the parse, not
from the coarse 1–31 day-range guard. -/
theorem date_rejects_nonexistent_calendar_date :
    DateValidation (.str "2023-02-30") = .ok ⟨"", "Invalid date"⟩ ∧
    dateRegexMatch "2023-02-30" = true ∧
    goTimeParseDate "2023-02-30" = none :=
  ⟨rfl, rfl, rfl⟩

/-- C7: every value that is neither nil, nor the empty string, nor an
uploaded-file handle makes each file validator (Image, ImageMime, File,
FileSize, FileType) fail with the invalid-file-format message. -/
theorem file_validators_reject_non_file
    (v : GoValue) (h1 : v ≠ .vnil) (h2 : v ≠ .str "")
    (h3 : ∀ fh, v ≠ .file fh) :
    ImageValidation v = .ok ⟨"", "Invalid file format"⟩ ∧
    ImageMimeValidation v = .ok ⟨"", "Invalid file format"⟩ ∧
    FileValidation v = .ok ⟨"", "Invalid file format"⟩ ∧
    (∀ m : Int, FileSizeValidation m v = .ok ⟨"", "Invalid file format"⟩) ∧
    (∀ ts : List String, FileTypeValidation v ts = .ok ⟨"", "Invalid file format"⟩) := by
  rcases v with _ | s | n | n | n | fh
  · exact absurd rfl h1
  · have hs : s ≠ "" := fun h => h2 (congrArg GoValue.str h)
    have habs : isAbsent (GoValue.str s) = false := by simp [isAbsent, hs]
    exact ⟨by simp [ImageValidation, habs], by simp [ImageMimeValidation, habs],
      by simp [FileValidation, habs], fun m => by simp [FileSizeValidation, habs],
      fun ts => by simp [FileTypeValidation, habs]⟩
  · exact ⟨rfl, rfl, rfl, fun m => rfl, fun ts => rfl⟩
  · exact ⟨rfl, rfl, rfl, fun m => rfl, fun ts => rfl⟩
  · exact ⟨rfl, rfl, rfl, fun m => rfl, fun ts => rfl⟩
  · exact absurd rfl (h3 fh)

/-- Witness for C7 at an integer value. -/
theorem file_validators_reject_non_file_witness :
    ImageValidation (.int 5) = .ok ⟨"", "Invalid file format"⟩ ∧
    ImageMimeValidation (.int 5) = .ok ⟨"", "Invalid file format"⟩ ∧
    FileValidation (.int 5) = .ok ⟨"", "Invalid file format"⟩ ∧
    FileSizeValidation 100 (.int 5) = .ok ⟨"", "Invalid file format"⟩ ∧
    FileTypeValidation (.int 5) ["pdf"] = .ok ⟨"", "Invalid file format"⟩ := by
  obtain ⟨r1, r2, r3, r4, r5⟩ := file_validators_reject_non_file (.int 5)
    (fun h => GoValue.noConfusion h) (fun h => GoValue.noConfusion h)
    (fun fh h => GoValue.noConfusion h)
  exact ⟨r1, r2, r3, r4 100, r5 ["pdf"]⟩

/-- C8: the Email validator silently passes every non-nil value that is not a
string (its failed type assertion returns the empty outcome), while the URL
validator reports such values with "Value is not a string". -/
theorem email_passes_non_string_url_fails
    (v : GoValue) (h1 : v ≠ .vnil) (h2 : ∀ s, v ≠ .str s) :
    EmailValidation v = .ok emptyItem ∧
    URLValidation v = .ok ⟨"", "Value is not a string"⟩ := by
  rcases v with _ | s | n | n | n | fh
  · exact absurd rfl h1
  · exact absurd rfl (h2 s)
  · exact ⟨rfl, rfl⟩
  · exact ⟨rfl, rfl⟩
  · exact ⟨rfl, rfl⟩
  · exact ⟨rfl, rfl⟩

/-- Witness for C8 at an integer value. -/
theorem email_passes_non_string_url_fails_witness :
    EmailValidation (.int 7) = .ok emptyItem ∧
    URLValidation (.int 7) = .ok ⟨"", "Value is not a string"⟩ :=
  email_passes_non_string_url_fails (.int 7)
    (fun h => GoValue.noConfusion h) (fun _ h => GoValue.noConfusion h)

/-- C9: a struct field whose json tag matches the rule but whose value is the
nil interface is reported as "field not found": resolution signals absence by
a nil result, so the rule's validators never run. -/
theorem nil_valued_field_reported_not_found
    (fields : List (String × GoValue)) (f d : String) (vs : List Validator)
    (h : fields.find? (fun p => p.1 == f) = some (f, .vnil)) :
    Validate (.struct fields) [⟨f, d, vs⟩] =
      .ok [⟨f, "field not found: " ++ f⟩] := by
  have hget : getField (.struct fields) f =
      .error ("field not found: " ++ f) := by
    simp [getField, getFieldByJsonTag, h]
  have hrule : runRule (.struct fields) ⟨f, d, vs⟩ =
      .ok [⟨f, "field not found: " ++ f⟩] := by
    unfold runRule
    simp only [hget]
  rw [Validate_cons, hrule, Validate_nil]
  simp

/-- Witness for C9: a record whose tagged field `x` holds the nil interface. -/
theorem nil_valued_field_reported_not_found_witness :
    Validate (.struct [("x", GoValue.vnil)])
        [⟨"x", "X", [RequiredValidation, StringValidation]⟩] =
      .ok [⟨"x", "field not found: " ++ "x"⟩] :=
  nil_valued_field_reported_not_found [("x", GoValue.vnil)] "x" "X"
    [RequiredValidation, StringValidation] rfl

/-- C10: FileType strips the "application/" prefix case-sensitively before
lower-casing: content-type "Application/PDF" keeps its prefix, lower-cases to
"application/pdf" and fails against valid types ["pdf"], while
"application/PDF" is stripped to "PDF", lower-cases to "pdf" and passes —
for any filename and size of the uploaded-file handle. -/
theorem filetype_prefix_strip_case_sensitive (fn : String) (sz : Int) :
    FileTypeValidation (.file ⟨fn, "Application/PDF", sz⟩) ["pdf"] =
      .ok ⟨"", "File type is not allowed"⟩ ∧
    FileTypeValidation (.file ⟨fn, "application/PDF", sz⟩) ["pdf"] =
      .ok emptyItem ∧
    trimPfx "Application/PDF" "application/" = "Application/PDF" ∧
    goToLower (trimPfx "Application/PDF" "application/") = "application/pdf" ∧
    goToLower (trimPfx "application/PDF" "application/") = "pdf" :=
  ⟨rfl, rfl, rfl, rfl, rfl⟩

end Validation
